import Mathlib

/-!
Verification of the DICOM ingestion service (`app.py`, `utils/dicom_saver.py`,
`utils/dicom_reader.py`).

The development shallowly embeds the repository's code:

* the hierarchical DICOM dataset handed back by the external decoder is the
  inductive type `Dataset` (a list of elements, each either a scalar-valued
  attribute or a `"SQ"`-tagged sequence of nested datasets);
* Python's insertion-ordered `dict` is an association list together with
  `dictInsert` (replace in place on key collision, append otherwise) and
  `dictGet`;
* `DicomSaver.flatten_dicom` / `DicomSaver.extract_dicom_metadata` become the
  recursive functions `flatten_dicom` / `extract_dicom_metadata`;
* the effectful methods (`save_to_rds`, `save_to_s3`, `process_and_save`,
  `RdsDataFetcher.fetch_data`) become functions from an environment recording
  the outcome of each external call (connect / insert / commit / put-object)
  to a trace of performed side effects paired with a Python-style outcome
  (`Except PyErr _`); `try/except/finally` is translated by its Python
  semantics, including the `NameError` raised when a handler or `finally`
  block touches a local that was never bound;
* `RdsDataFetcher.build_query` and the keyword-argument binding performed by
  the `DicomSaver(...)` call in `app.py` are translated directly.
-/

/-- A single attribute (element) of a decoded DICOM dataset, as iterated by
`for element in dicom_data`.  `scalar kw v` models an element whose `VR` is
not `"SQ"`; `v` is the string `str(element.value)` computed by the library.
`sq kw items` models an element whose `VR` is `"SQ"`, whose value is the list
of nested datasets `items`; a dataset is a `List Elem` in source order. -/
inductive Elem : Type where
  | scalar (keyword : String) (value : String)
  | sq (keyword : String) (items : List (List Elem))

/-- The keyword of an element (`element.keyword`). -/
def Elem.key : Elem → String
  | .scalar k _ => k
  | .sq k _ => k

/-- A value stored in the flattened metadata dictionary: either the string
`str(element.value)` or, for a sequence element, the list of flattened nested
dictionaries (each a `List (String × FlatVal)` in insertion order). -/
inductive FlatVal : Type where
  | str (s : String)
  | dicts (items : List (List (String × FlatVal)))

/-- Flattened metadata: a Python `dict` with string keys, modelled as an
association list in insertion order. -/
abbrev FlatMeta := List (String × FlatVal)

/-- Python `d[k] = v` on an insertion-ordered dict: if `k` is already
present, every entry with key `k` keeps its position and gets the new value
(a Python dict holds at most one, so this is exactly the in-place update);
otherwise `(k, v)` is appended at the end. -/
def dictInsert (d : FlatMeta) (k : String) (v : FlatVal) : FlatMeta :=
  if d.any (fun p => p.1 = k) then
    d.map (fun p => if p.1 = k then (k, v) else p)
  else
    d ++ [(k, v)]

/-- Python `d.get(k)`: the value at `k`, if present. -/
def dictGet : FlatMeta → String → Option FlatVal
  | [], _ => none
  | q :: rest, k => if q.1 = k then some q.2 else dictGet rest k

mutual

/-- `DicomSaver.flatten_dicom`: flattens a DICOM dataset into a dict by
looping over its elements (`flattenLoop` is the `for element in dicom_data`
loop with `flat_dicom` as the accumulator, started from `{}`). -/
def flatten_dicom (dicom_data : List Elem) : FlatMeta :=
  flattenLoop dicom_data []

/-- The body of the loop in `flatten_dicom`: for a `"SQ"` element, store the
list of recursively flattened sequence items; otherwise store the string
value.  `acc` is the `flat_dicom` dict built so far. -/
def flattenLoop (elems : List Elem) (acc : FlatMeta) : FlatMeta :=
  match elems with
  | [] => acc
  | .scalar k v :: rest => flattenLoop rest (dictInsert acc k (.str v))
  | .sq k items :: rest =>
      flattenLoop rest (dictInsert acc k (.dicts (flattenSeq items)))

/-- The inner `for seq_item in element.value` loop of `flatten_dicom`:
flattens each nested dataset in order (`sequence_data.append(...)`). -/
def flattenSeq (items : List (List Elem)) : List FlatMeta :=
  match items with
  | [] => []
  | d :: ds => flatten_dicom d :: flattenSeq ds

end

/-- The `for element in dicom_data` loop of `extract_dicom_metadata`. -/
def extractLoop (elems : List Elem) (acc : FlatMeta) : FlatMeta :=
  match elems with
  | [] => acc
  | .scalar k v :: rest => extractLoop rest (dictInsert acc k (.str v))
  | .sq k items :: rest =>
      extractLoop rest (dictInsert acc k (.dicts (items.map flatten_dicom)))

/-- `DicomSaver.extract_dicom_metadata`: the top-level metadata extraction.
Its body is the same loop as `flatten_dicom`, delegating each sequence item
to `flatten_dicom` (`sequence_data.append(self.flatten_dicom(seq_item))`). -/
def extract_dicom_metadata (dicom_data : List Elem) : FlatMeta :=
  extractLoop dicom_data []

/-- The flattened value a single element contributes to the dict. -/
def elemVal : Elem → FlatVal
  | .scalar _ v => .str v
  | .sq _ items => .dicts (items.map flatten_dicom)

/-- The last element of the dataset carrying keyword `k` — the one whose
write wins in the Python dict. -/
def findLastElem : List Elem → String → Option Elem
  | [], _ => none
  | e :: rest, k =>
      match findLastElem rest k with
      | some e' => some e'
      | none => if e.key = k then some e else none

/-! ### Dictionary lemmas -/

theorem dictInsert_cons (p : String × FlatVal) (rest : FlatMeta) (k : String)
    (v : FlatVal) :
    dictInsert (p :: rest) k v =
      if p.1 = k then (k, v) :: rest.map (fun q => if q.1 = k then (k, v) else q)
      else p :: dictInsert rest k v := by
  by_cases hp : p.1 = k
  · simp [dictInsert, List.any_cons, hp]
  · by_cases hrest : rest.any (fun q => q.1 = k) = true
    · simp [dictInsert, List.any_cons, hp, hrest]
    · simp [dictInsert, List.any_cons, hp, hrest]

theorem dictGet_eq_none_of_any_false (d : FlatMeta) (k : String)
    (h : d.any (fun q => q.1 = k) = false) : dictGet d k = none := by
  induction d with
  | nil => rfl
  | cons p rest ih =>
    simp only [List.any_cons, Bool.or_eq_false_iff, decide_eq_false_iff_not] at h
    simp [dictGet, h.1, ih h.2]

theorem dictGet_mapReplace_ne (d : FlatMeta) (k k' : String) (v : FlatVal)
    (hkk : ¬ k = k') :
    dictGet (d.map (fun q => if q.1 = k then (k, v) else q)) k' = dictGet d k' := by
  induction d with
  | nil => rfl
  | cons q qs ih =>
    by_cases hq : q.1 = k
    · have hqk' : ¬ q.1 = k' := fun h => hkk (hq.symm.trans h)
      rw [List.map_cons, if_pos hq]
      simp only [dictGet]
      rw [if_neg hkk, if_neg hqk', ih]
    · rw [List.map_cons, if_neg hq]
      simp only [dictGet]
      rw [ih]

theorem dictGet_dictInsert (d : FlatMeta) (k k' : String) (v : FlatVal) :
    dictGet (dictInsert d k v) k' = if k' = k then some v else dictGet d k' := by
  induction d with
  | nil =>
    by_cases hk : k' = k
    · subst hk
      simp [dictInsert, dictGet]
    · have hkk : ¬ k = k' := fun h => hk h.symm
      simp [dictInsert, dictGet, hk, hkk]
  | cons p rest ih =>
    rw [dictInsert_cons]
    by_cases hp : p.1 = k
    · rw [if_pos hp]
      by_cases hk : k' = k
      · subst hk
        simp [dictGet]
      · have hkk : ¬ k = k' := fun h => hk h.symm
        have hpk : ¬ p.1 = k' := fun h => hkk (hp.symm.trans h)
        simp only [dictGet]
        rw [if_neg hkk, if_neg hk, if_neg hpk, dictGet_mapReplace_ne _ _ _ _ hkk]
    · rw [if_neg hp]
      simp only [dictGet]
      rw [ih]
      split_ifs with h1 h2 <;> first | rfl | exact absurd (h1.trans h2) hp

theorem keys_dictInsert (d : FlatMeta) (k : String) (v : FlatVal) :
    (dictInsert d k v).map Prod.fst =
      if k ∈ d.map Prod.fst then d.map Prod.fst else d.map Prod.fst ++ [k] := by
  by_cases h : d.any (fun p => p.1 = k) = true
  · have hm : k ∈ d.map Prod.fst := by
      simp only [List.any_eq_true, decide_eq_true_eq] at h
      obtain ⟨p, hp, hpk⟩ := h
      exact List.mem_map.mpr ⟨p, hp, hpk⟩
    rw [dictInsert, if_pos h, if_pos hm, List.map_map]
    apply List.map_congr_left
    intro q hq
    by_cases hqk : q.1 = k
    · simp [hqk]
    · simp [hqk]
  · have hm : k ∉ d.map Prod.fst := by
      intro hmem
      obtain ⟨p, hp, hpk⟩ := List.mem_map.mp hmem
      exact h (List.any_eq_true.mpr ⟨p, hp, decide_eq_true hpk⟩)
    rw [dictInsert, if_neg h, if_neg hm, List.map_append]
    rfl

theorem nodup_keys_dictInsert (d : FlatMeta) (k : String) (v : FlatVal)
    (h : (d.map Prod.fst).Nodup) : ((dictInsert d k v).map Prod.fst).Nodup := by
  rw [keys_dictInsert]
  by_cases hm : k ∈ d.map Prod.fst
  · rw [if_pos hm]
    exact h
  · rw [if_neg hm]
    exact List.nodup_append.mpr ⟨h, List.nodup_singleton k,
      by simp [List.disjoint_left, hm]⟩

theorem mem_keys_dictInsert (d : FlatMeta) (k k' : String) (v : FlatVal) :
    k' ∈ (dictInsert d k v).map Prod.fst ↔ k' ∈ d.map Prod.fst ∨ k' = k := by
  rw [keys_dictInsert]
  by_cases hm : k ∈ d.map Prod.fst
  · rw [if_pos hm]
    constructor
    · exact Or.inl
    · rintro (h | rfl)
      · exact h
      · exact hm
  · rw [if_neg hm]
    simp

/-! ### Flattening lemmas -/

theorem flattenSeq_eq_map (items : List (List Elem)) :
    flattenSeq items = items.map flatten_dicom := by
  induction items with
  | nil => rw [flattenSeq, List.map_nil]
  | cons d ds ih => rw [flattenSeq, List.map_cons, ih]

theorem flattenLoop_cons (e : Elem) (rest : List Elem) (acc : FlatMeta) :
    flattenLoop (e :: rest) acc =
      flattenLoop rest (dictInsert acc e.key (elemVal e)) := by
  cases e with
  | scalar k v => rw [flattenLoop, Elem.key, elemVal]
  | sq k items => rw [flattenLoop, Elem.key, elemVal, flattenSeq_eq_map]

theorem dictGet_flattenLoop (es : List Elem) (k : String) :
    ∀ acc, dictGet (flattenLoop es acc) k =
      match findLastElem es k with
      | some e => some (elemVal e)
      | none => dictGet acc k := by
  induction es with
  | nil =>
    intro acc
    rw [flattenLoop, findLastElem]
  | cons e rest ih =>
    intro acc
    rw [flattenLoop_cons, ih, findLastElem]
    cases hfind : findLastElem rest k with
    | some e' => rfl
    | none =>
      rw [dictGet_dictInsert]
      by_cases hk : e.key = k
      · rw [if_pos hk, if_pos hk.symm]
      · rw [if_neg hk, if_neg (fun h => hk h.symm)]

theorem dictGet_flatten_dicom (d : List Elem) (k : String) :
    dictGet (flatten_dicom d) k = (findLastElem d k).map elemVal := by
  rw [flatten_dicom, dictGet_flattenLoop]
  cases findLastElem d k <;> rfl

theorem keys_flattenLoop_nodup (es : List Elem) :
    ∀ acc : FlatMeta, (acc.map Prod.fst).Nodup →
      ((flattenLoop es acc).map Prod.fst).Nodup := by
  induction es with
  | nil =>
    intro acc h
    rw [flattenLoop]
    exact h
  | cons e rest ih =>
    intro acc h
    rw [flattenLoop_cons]
    exact ih _ (nodup_keys_dictInsert _ _ _ h)

theorem mem_keys_flattenLoop (es : List Elem) (k : String) :
    ∀ acc : FlatMeta, (k ∈ (flattenLoop es acc).map Prod.fst ↔
      k ∈ acc.map Prod.fst ∨ k ∈ es.map Elem.key) := by
  induction es with
  | nil =>
    intro acc
    rw [flattenLoop]
    simp
  | cons e rest ih =>
    intro acc
    rw [flattenLoop_cons, ih, mem_keys_dictInsert]
    simp only [List.map_cons, List.mem_cons]
    tauto

theorem findLastElem_append (xs ys : List Elem) (k : String) :
    findLastElem (xs ++ ys) k =
      match findLastElem ys k with
      | some e => some e
      | none => findLastElem xs k := by
  induction xs with
  | nil =>
    rw [List.nil_append, findLastElem]
    cases findLastElem ys k <;> rfl
  | cons e es ih =>
    rw [List.cons_append, findLastElem, ih, findLastElem]
    cases findLastElem ys k <;> cases findLastElem es k <;> rfl

theorem findLastElem_eq_none_of_not_mem (es : List Elem) (k : String)
    (h : k ∉ es.map Elem.key) : findLastElem es k = none := by
  induction es with
  | nil => rfl
  | cons e rest ih =>
    simp only [List.map_cons, List.mem_cons, not_or] at h
    rw [findLastElem, ih h.2, if_neg (fun hk => h.1 hk.symm)]

/-! ### Claim theorems about the flattener -/

/-- **C5.** For every successfully decoded dataset, the flattened metadata
contains exactly one entry per source attribute key (keys are without
duplicates and are exactly the source keys); and for every sequence-typed
attribute (the one whose write wins at its key), the stored value is the
order-preserving map of `flatten_dicom` over its nested records — each
nested element fully flattened by the same rule, recursively at every
nesting depth. -/
theorem flatten_dicom_key_and_order_invariant (d : List Elem) :
    ((flatten_dicom d).map Prod.fst).Nodup ∧
    (∀ k, k ∈ (flatten_dicom d).map Prod.fst ↔ k ∈ d.map Elem.key) ∧
    (∀ k items, findLastElem d k = some (Elem.sq k items) →
      dictGet (flatten_dicom d) k
        = some (FlatVal.dicts (items.map flatten_dicom))) := by
  refine ⟨?_, ?_, ?_⟩
  · rw [flatten_dicom]
    exact keys_flattenLoop_nodup d [] (by simp)
  · intro k
    rw [flatten_dicom, mem_keys_flattenLoop]
    simp [dictGet]
  · intro k items h
    rw [dictGet_flatten_dicom, h]
    rfl

/-- Witness for C5 at a concrete dataset with a scalar attribute and a
nested sequence attribute. -/
theorem flatten_dicom_key_and_order_invariant_witness :
    dictGet (flatten_dicom [Elem.scalar "PatientName" "Alice",
        Elem.sq "Seq" [[Elem.scalar "A" "1"]]]) "Seq"
      = some (FlatVal.dicts [[("A", FlatVal.str "1")]]) := by
  have h := (flatten_dicom_key_and_order_invariant
      [Elem.scalar "PatientName" "Alice",
        Elem.sq "Seq" [[Elem.scalar "A" "1"]]]).2.2
      "Seq" [[Elem.scalar "A" "1"]] rfl
  rw [h]
  simp [flatten_dicom, flattenLoop, flattenSeq, dictInsert]

/-- **C8.** If one record level contains two attributes sharing a key, the
flattener deduplicates nothing up front and the later write wins: the
flattened output maps that key to the value derived from the later of the
two attributes in iteration order (provided no later attribute also carries
that key). -/
theorem flatten_dicom_later_write_wins (pre mid post : List Elem)
    (e1 e2 : Elem) (hk : e1.key = e2.key)
    (hpost : e2.key ∉ post.map Elem.key) :
    dictGet (flatten_dicom (pre ++ e1 :: mid ++ e2 :: post)) e2.key
      = some (elemVal e2) := by
  have hpostnone : findLastElem post e2.key = none :=
    findLastElem_eq_none_of_not_mem post e2.key hpost
  have h2 : findLastElem (e2 :: post) e2.key = some e2 := by
    rw [findLastElem, hpostnone, if_pos rfl]
  rw [dictGet_flatten_dicom, findLastElem_append, h2]
  rfl

/-- Witness for C8: two scalar attributes with the same keyword `"A"`; the
flattened dict holds the later value `"2"`. -/
theorem flatten_dicom_later_write_wins_witness :
    dictGet (flatten_dicom [Elem.scalar "A" "1", Elem.scalar "A" "2"]) "A"
      = some (FlatVal.str "2") :=
  flatten_dicom_later_write_wins [] [] [] (Elem.scalar "A" "1")
    (Elem.scalar "A" "2") rfl (by simp)

theorem extractLoop_eq_flattenLoop (es : List Elem) :
    ∀ acc, extractLoop es acc = flattenLoop es acc := by
  induction es with
  | nil =>
    intro acc
    rw [extractLoop, flattenLoop]
  | cons e rest ih =>
    intro acc
    cases e with
    | scalar k v => rw [extractLoop, flattenLoop, ih]
    | sq k items => rw [extractLoop, flattenLoop, ih, flattenSeq_eq_map]

/-- **C10.** `extract_dicom_metadata` and `flatten_dicom` are extensionally
identical: on every DICOM dataset they return equal results. -/
theorem extract_dicom_metadata_eq_flatten_dicom (d : List Elem) :
    extract_dicom_metadata d = flatten_dicom d := by
  rw [extract_dicom_metadata, flatten_dicom, extractLoop_eq_flattenLoop]

/-! ### Effectful embedding of `DicomSaver` -/

/-- Errors a Python call can raise in this embedding: `dbError` for a
psycopg2 exception (connect / execute / commit), `decodeError` for a
`pydicom.dcmread` failure, `s3Error` for a boto3 `put_object` failure, and
`nameError` for a Python `NameError` raised by referencing a local variable
that was never bound. -/
inductive PyErr : Type where
  | dbError
  | decodeError
  | s3Error
  | nameError
deriving DecidableEq

/-- Observable side effects of the saver: `rdsConnect` is recorded whenever
`psycopg2.connect` is attempted (success or failure), `rdsInsert` /
`rdsCommit` when the INSERT / commit succeed, `rdsRollback` when the except
handler rolls the transaction back, `s3Put` whenever `put_object` is
invoked. -/
inductive Event : Type where
  | rdsConnect
  | rdsInsert (metadata : FlatMeta)
  | rdsCommit
  | rdsRollback
  | printOk
  | printErr
  | cursorClose
  | connClose
  | s3Put (filename : String)

/-- Outcomes of the external calls made during one upload: whether
`pydicom.dcmread` succeeds and what dataset it yields, and whether each
database / blob-store call succeeds. -/
structure SaverEnv : Type where
  decodeOk : Bool
  decoded : List Elem
  connectOk : Bool
  insertOk : Bool
  commitOk : Bool
  s3PutOk : Bool

/-- `DicomSaver.save_to_rds`, with its `try/except/finally` translated by
Python semantics.  The try block binds `conn` and then `cursor` (obtaining
the cursor is assumed not to fail, so `conn` is bound iff `cursor` is),
executes the INSERT and commits.  The except handler runs `conn.rollback()`
— a `NameError` if `conn` was never bound — then prints and falls through,
swallowing the exception.  The `finally` block runs `cursor.close()` — a
`NameError` if `cursor` was never bound — then `conn.close()`; an exception
raised in `finally` replaces any pending one. -/
def save_to_rds (env : SaverEnv) (dicom_metadata : FlatMeta) :
    List Event × Except PyErr Unit :=
  let tryStep : List Event × Bool × Except PyErr Unit :=
    if env.connectOk then
      if env.insertOk then
        if env.commitOk then
          ([.rdsConnect, .rdsInsert dicom_metadata, .rdsCommit, .printOk],
            true, .ok ())
        else
          ([.rdsConnect, .rdsInsert dicom_metadata], true, .error .dbError)
      else
        ([.rdsConnect], true, .error .dbError)
    else
      ([.rdsConnect], false, .error .dbError)
  let tTrace := tryStep.1
  let connBound := tryStep.2.1
  let tRes := tryStep.2.2
  let handlerStep : List Event × Except PyErr Unit :=
    match tRes with
    | .ok _ => ([], .ok ())
    | .error _ =>
        if connBound then ([.rdsRollback, .printErr], .ok ())
        else ([], .error .nameError)
  let afterExcept : Except PyErr Unit :=
    match tRes, handlerStep.2 with
    | .ok _, _ => .ok ()
    | .error _, .ok _ => .ok ()
    | .error _, .error e => .error e
  let finallyStep : List Event × Except PyErr Unit :=
    if connBound then ([.cursorClose, .connClose], .ok ())
    else ([], .error .nameError)
  (tTrace ++ handlerStep.1 ++ finallyStep.1,
    match finallyStep.2 with
    | .error e => .error e
    | .ok _ => afterExcept)

/-- `DicomSaver.save_to_s3`: a single `put_object` call; a boto3 failure
propagates to the caller (there is no handler). -/
def save_to_s3 (env : SaverEnv) (filename : String) :
    List Event × Except PyErr Unit :=
  ([.s3Put filename], if env.s3PutOk then .ok () else .error .s3Error)

/-- `DicomSaver.process_and_save`: decode the bytes, extract the metadata,
save it to RDS, then save the bytes to S3.  A decode failure propagates
before anything else runs; each later step runs only when the previous call
returned normally. -/
def process_and_save (env : SaverEnv) (filename : String) :
    List Event × Except PyErr Unit :=
  if env.decodeOk then
    let metadata := extract_dicom_metadata env.decoded
    let rdsStep := save_to_rds env metadata
    match rdsStep.2 with
    | .error e => (rdsStep.1, .error e)
    | .ok _ =>
        let s3Step := save_to_s3 env filename
        (rdsStep.1 ++ s3Step.1, s3Step.2)
  else
    ([], .error .decodeError)

/-! ### Claim theorems about the saver flow -/

/-- **C6.** When decoding fails, `process_and_save` aborts with the decode
error and produces no side effects at all: the trace is empty, so
`save_to_rds` is never entered (no connect is attempted) and `save_to_s3`
is never invoked (no put occurs). -/
theorem process_and_save_decode_failure_no_side_effects
    (env : SaverEnv) (filename : String) (h : env.decodeOk = false) :
    process_and_save env filename = ([], .error .decodeError) ∧
    Event.rdsConnect ∉ (process_and_save env filename).1 ∧
    ∀ f, Event.s3Put f ∉ (process_and_save env filename).1 := by
  simp [process_and_save, h]

/-- Witness for C6 at a concrete environment whose decode step fails. -/
theorem process_and_save_decode_failure_no_side_effects_witness :
    process_and_save ⟨false, [], true, true, true, true⟩ "scan.dcm"
        = ([], .error .decodeError) ∧
    Event.rdsConnect
        ∉ (process_and_save ⟨false, [], true, true, true, true⟩ "scan.dcm").1 ∧
    ∀ f, Event.s3Put f
        ∉ (process_and_save ⟨false, [], true, true, true, true⟩ "scan.dcm").1 :=
  process_and_save_decode_failure_no_side_effects
    ⟨false, [], true, true, true, true⟩ "scan.dcm" rfl

/-- **C3.** When decode and the whole metadata save succeed and the blob
save fails, the committed metadata row stays in place: the trace contains
the commit and no rollback (nothing compensates the metadata write), and
the call ends with the storage error. -/
theorem process_and_save_no_rollback_on_s3_failure
    (env : SaverEnv) (filename : String)
    (hdec : env.decodeOk = true) (hconn : env.connectOk = true)
    (hins : env.insertOk = true) (hcom : env.commitOk = true)
    (hs3 : env.s3PutOk = false) :
    Event.rdsCommit ∈ (process_and_save env filename).1 ∧
    Event.rdsRollback ∉ (process_and_save env filename).1 ∧
    (process_and_save env filename).2 = .error .s3Error := by
  simp [process_and_save, save_to_rds, save_to_s3, hdec, hconn, hins, hcom, hs3]

/-- Witness for C3 at a concrete environment where only the S3 put fails. -/
theorem process_and_save_no_rollback_on_s3_failure_witness :
    Event.rdsCommit
        ∈ (process_and_save ⟨true, [], true, true, true, false⟩ "scan.dcm").1 ∧
    Event.rdsRollback
        ∉ (process_and_save ⟨true, [], true, true, true, false⟩ "scan.dcm").1 ∧
    (process_and_save ⟨true, [], true, true, true, false⟩ "scan.dcm").2
        = .error .s3Error :=
  process_and_save_no_rollback_on_s3_failure
    ⟨true, [], true, true, true, false⟩ "scan.dcm" rfl rfl rfl rfl rfl

/-- **C1** (behaviour at the failing input): decode succeeds but the
metadata INSERT raises.  `save_to_rds` rolls back, prints, and returns
normally — the error is swallowed — so `process_and_save` goes on to invoke
`save_to_s3` and reports overall success.  No `PersistError` is signalled
and the raw bytes ARE saved, contradicting the claimed contract. -/
theorem process_and_save_persist_failure_still_saves_blob :
    (process_and_save ⟨true, [], true, false, true, true⟩ "scan.dcm").1
      = [.rdsConnect, .rdsRollback, .printErr, .cursorClose, .connClose,
         .s3Put "scan.dcm"] ∧
    (process_and_save ⟨true, [], true, false, true, true⟩ "scan.dcm").2
      = .ok () := by
  constructor <;> rfl

/-- **C2** (behaviour at the failing input): when the INSERT raises inside
`save_to_rds`, the transaction is rolled back — but the except handler only
prints and falls through, so the error is swallowed and the call returns
normally instead of propagating it to the caller. -/
theorem save_to_rds_insert_failure_rolls_back_but_swallows :
    (save_to_rds ⟨true, [], true, false, true, true⟩ []).1
      = [.rdsConnect, .rdsRollback, .printErr, .cursorClose, .connClose] ∧
    (save_to_rds ⟨true, [], true, false, true, true⟩ []).2 = .ok () := by
  constructor <;> rfl

/-! ### Embedding of `RdsDataFetcher` -/

/-- `RdsDataFetcher.build_query`.  `filters` is the Python dict in insertion
order, with `[]` modelling both `None` and `{}` (equally falsy in
`if filters:`); only its keys are used.  `sort_by` is `None` or a string —
`if sort_by:` is falsy for `None` and for the empty string.  `page` and
`page_size` are Python ints, truthy iff nonzero; `offset` is
`(page - 1) * page_size`.  Filter conditions render as `"key = %s"`
placeholders joined by `" AND "`; sort column and direction are
interpolated as raw text. -/
def build_query (base_query : String) (filters : List (String × Int))
    (sort_by : Option String) (sort_order : String)
    (page : Int) (page_size : Int) : String :=
  let query := base_query
  let query :=
    if filters.isEmpty then query
    else
      let filter_conditions := filters.map (fun kv => kv.1 ++ " = %s")
      let filter_clause := String.intercalate " AND " filter_conditions
      query ++ " WHERE " ++ filter_clause
  let query :=
    match sort_by with
    | some sb =>
        if sb.isEmpty then query
        else query ++ " ORDER BY " ++ sb ++ " " ++ sort_order
    | none => query
  let query :=
    if page ≠ 0 ∧ page_size ≠ 0 then
      let offset := (page - 1) * page_size
      query ++ " OFFSET " ++ toString offset ++ " LIMIT " ++ toString page_size
    else query
  query

/-- The filter-value binding used together with `build_query`, from the
module's usage (`filter_values = list(filters.values()) if filters else
None`): the dict's values in its iteration order. -/
def filter_values_of (filters : List (String × Int)) : Option (List Int) :=
  if filters.isEmpty then none else some (filters.map Prod.snd)

/-- Observable side effects of one `fetch_data` call: `connect` is recorded
whenever `psycopg2.connect` is attempted, `execute` whenever
`cursor.execute(query, filter_values)` is attempted. -/
inductive FetchEvent : Type where
  | connect
  | execute (query : String) (filter_values : List Int)
  | printErr
  | cursorClose
  | connClose
deriving DecidableEq

/-- Outcomes of the external calls made during one `fetch_data` call, and
the rows `cursor.fetchall()` returns when everything succeeds. -/
structure FetchEnv : Type where
  connectOk : Bool
  executeOk : Bool
  rows : List (List String)

/-- `RdsDataFetcher.fetch_data`, with its `try/except/finally` translated
by Python semantics.  The try block binds `conn` then `cursor` (obtaining
the cursor is assumed not to fail), executes the query and returns the
fetched rows.  The except handler only prints, so a raised exception is
swallowed and the function falls off the end, returning `None`.  The
`finally` block runs `cursor.close()` — a `NameError` if `cursor` was never
bound — then `conn.close()`; an exception raised in `finally` replaces any
pending result. -/
def fetch_data (env : FetchEnv) (query : String) (filter_values : List Int) :
    List FetchEvent × Except PyErr (Option (List (List String))) :=
  let tryStep : List FetchEvent × Bool ×
      Except PyErr (Option (List (List String))) :=
    if env.connectOk then
      if env.executeOk then
        ([.connect, .execute query filter_values], true, .ok (some env.rows))
      else
        ([.connect, .execute query filter_values], true, .error .dbError)
    else
      ([.connect], false, .error .dbError)
  let tTrace := tryStep.1
  let connBound := tryStep.2.1
  let tRes := tryStep.2.2
  let handlerTrace : List FetchEvent :=
    match tRes with
    | .ok _ => []
    | .error _ => [.printErr]
  let afterExcept : Except PyErr (Option (List (List String))) :=
    match tRes with
    | .ok v => .ok v
    | .error _ => .ok none
  let finallyStep : List FetchEvent × Except PyErr Unit :=
    if connBound then ([.cursorClose, .connClose], .ok ())
    else ([], .error .nameError)
  (tTrace ++ handlerTrace ++ finallyStep.1,
    match finallyStep.2 with
    | .error e => .error e
    | .ok _ => afterExcept)

/-! ### Embedding of the startup construction in `app.py` -/

/-- A Python `TypeError` raised while binding call arguments to a function
signature. -/
inductive BindError : Type where
  | unexpectedKeyword (name : String)
  | missingArgument (name : String)
deriving DecidableEq

/-- Python keyword-argument binding for a call that passes only keyword
arguments: a `TypeError` for the first keyword that is not a parameter
name, else for the first parameter that received no value, else the bound
mapping. -/
def bindKwargs (params : List String) (kwargs : List (String × String)) :
    Except BindError (List (String × String)) :=
  match kwargs.find? (fun kv => !params.contains kv.1) with
  | some kv => .error (.unexpectedKeyword kv.1)
  | none =>
      match params.find? (fun p => !(kwargs.map Prod.fst).contains p) with
      | some p => .error (.missingArgument p)
      | none => .ok kwargs

/-- The parameters of `DicomSaver.__init__` besides `self`:
`rds_instance` and `s3_bucket`. -/
def dicomSaverInitParams : List String := ["rds_instance", "s3_bucket"]

/-- The constructor call the application module makes at startup:
`DicomSaver(s3_bucket=..., region_name=..., access_key_id=...,
secret_access_key=...)`, with the four configuration values read from the
environment at process start. -/
def dicom_saver_startup (s3_bucket region_name access_key_id
    secret_access_key : String) : Except BindError (List (String × String)) :=
  bindKwargs dicomSaverInitParams
    [("s3_bucket", s3_bucket), ("region_name", region_name),
     ("access_key_id", access_key_id), ("secret_access_key", secret_access_key)]

/-! ### Claim theorems about the fetcher and startup -/

/-- **C4** (behaviour at the failing input): when opening the connection
raises, the except handler prints and swallows, but the `finally` block
references the never-bound local `cursor` and itself raises `NameError`: no
close event occurs and the call ends in `NameError` instead of a clean
return — the cleanup path is not failure-free. -/
theorem fetch_data_connect_failure_cleanup_raises :
    (fetch_data ⟨false, true, []⟩ "SELECT 1" []).1
      = [.connect, .printErr] ∧
    (fetch_data ⟨false, true, []⟩ "SELECT 1" []).2 = .error .nameError ∧
    FetchEvent.connClose ∉ (fetch_data ⟨false, true, []⟩ "SELECT 1" []).1 := by
  refine ⟨rfl, rfl, ?_⟩
  decide

/-- **C7** (counterexample): at the base query `"SELECT * FROM t"` with
filters `{a: 1, b: 2}`, no sort and default pagination, the built query
renders placeholders in psycopg2's `%s` paramstyle, so its WHERE clause is
not the claimed `a = ? AND b = ?`. -/
theorem build_query_placeholder_counterexample :
    build_query "SELECT * FROM t" [("a", 1), ("b", 2)] none "asc" 1 10
      ≠ "SELECT * FROM t WHERE a = ? AND b = ? OFFSET 0 LIMIT 10" := by
  decide

/-- **C7** (amended): for every base query, `build_query` with the
two-entry filter mapping `{a: 1, b: 2}`, no sort, and default pagination
yields the WHERE clause `a = %s AND b = %s` — the placeholder conditions
joined by `AND` in mapping iteration order — followed by the default
pagination clause; and the corresponding filter values are bound as
`[1, 2]`, in that same order. -/
theorem build_query_two_filters (base_query : String) :
    build_query base_query [("a", 1), ("b", 2)] none "asc" 1 10
      = base_query ++ " WHERE a = %s AND b = %s OFFSET 0 LIMIT 10" ∧
    filter_values_of [("a", 1), ("b", 2)] = some [1, 2] := by
  constructor
  · show (base_query ++ " WHERE " ++ "a = %s AND b = %s") ++ " OFFSET "
        ++ toString (((1 : Int) - 1) * 10) ++ " LIMIT " ++ toString (10 : Int)
      = base_query ++ " WHERE a = %s AND b = %s OFFSET 0 LIMIT 10"
    simp only [String.append_assoc]
    congr 1
  · rfl

/-- **C9** (behaviour at the failing input): for every startup
configuration, the application module's `DicomSaver(...)` call binds its
keyword arguments against `__init__(self, rds_instance, s3_bucket)` and
raises `TypeError: unexpected keyword argument 'region_name'` — the
construction fails instead of yielding a configured service. -/
theorem dicom_saver_startup_raises (s3_bucket region_name access_key_id
    secret_access_key : String) :
    dicom_saver_startup s3_bucket region_name access_key_id secret_access_key
      = .error (.unexpectedKeyword "region_name") := rfl
